import Mathlib

/-!
Shallow embedding of the DWI gradient-scheme resolution code of MRtrix
(`src/dwi/gradient.h`, together with the exception type of
`lib/exception.h`), and proofs about it.

Scalars are kept polymorphic over a `LinearOrderedField` so that the
decision-free parts can be evaluated over `ℚ`, while the parts that
genuinely need a square root (`Math::norm`) are stated over an abstract
square-root function `sq` and instantiated at `ℝ`/`Real.sqrt` in the
concrete witnesses.  Numeric library functions that are not part of the
shown sources (`Math::norm`, `Math::atan2`, `Math::acos`,
`File::Config::get_float`, the `Path` helpers and the generic matrix
file loader) are modelled from the spec, as noted on each definition.
-/

/-- Embedding of `MR::Exception` (`lib/exception.h`): an ordered list of
description messages; the single-message constructor pushes one message. -/
structure Exc where
  description : List String
deriving DecidableEq

/-- `Exception (msg)`: a one-message exception. -/
def Exc.ofMsg (msg : String) : Exc := ⟨[msg]⟩

/-- A matrix (`Math::Matrix`) as a list of rows. -/
abbrev Mat (α : Type) := List (List α)

/-- `Math::Matrix::rows()`. -/
def Mat.rows {α : Type} (m : Mat α) : ℕ := m.length

/-- `Math::Matrix::columns()`: length of the first row (the matrices
handled here are rectangular). -/
def Mat.cols {α : Type} (m : Mat α) : ℕ := (m.headD []).length

/-- Entry access `m(i,j)` with default 0 out of range. -/
def Mat.entry {α : Type} [Zero α] (m : Mat α) (i j : ℕ) : α :=
  (m.getD i []).getD j 0

/-- Rectangularity: every row has the matrix's column count. -/
def Mat.Rect {α : Type} (m : Mat α) : Prop := ∀ r ∈ m, r.length = Mat.cols m

/-- A filesystem snapshot: maps a path to the parsed matrix stored in the
file there, or `none` when no such file exists. -/
abbrev FS (α : Type) := String → Option (Mat α)

/-- Modelled from the spec: `Path::is_file` — existence of a file. -/
def Path.is_file {α : Type} (fs : FS α) (p : String) : Bool := (fs p).isSome

/-- Index of the last occurrence of `c`, when present (`find_last_of`). -/
def lastIdx (c : Char) : List Char → Option ℕ
  | [] => none
  | a :: rest =>
      match lastIdx c rest with
      | some i => some (i + 1)
      | none => if a = c then some 0 else none

/-- Modelled from the spec: `Path::dirname` — the portion of the path
before the last separator (empty when there is no separator, "/" when the
separator is the first character). -/
def Path.dirname (s : String) : String :=
  match lastIdx '/' s.toList with
  | none => ""
  | some 0 => "/"
  | some i => ⟨s.toList.take i⟩

/-- Modelled from the spec: `Path::join` — joins a directory and a file
name with a separator (no separator when the directory is empty). -/
def Path.join (a b : String) : String :=
  if a = "" then b else a ++ "/" ++ b

/-- Modelled from the spec: `Path::has_suffix` — does the name end in the
given suffix. -/
def Path.has_suffix (name suffix : String) : Bool :=
  suffix.toList.isSuffixOf name.toList

/-- `name.substr (0, name.find_last_of ('.'))`: the image path with its
last extension removed (the whole path when there is no dot, as
`substr (0, npos)` returns the whole string). -/
def stemOf (s : String) : String :=
  match lastIdx '.' s.toList with
  | none => s
  | some i => ⟨s.toList.take i⟩

/-- Embedding of the `Image::Header` collaborator, exposing exactly the
fields the gradient code reads (spec §3: image path, diffusion-dimension
extent, per-axis stride sign, axis display order — a permutation of
0,1,2 —, the 3×3 relevant block of the voxel-to-scanner transform, and
the optional embedded scheme, `none` when `DW_scheme().is_set()` is
false). -/
structure Header (α : Type) where
  name : String
  dim3 : ℕ
  stride : ℕ → ℤ
  order : ℕ → ℕ
  transform : ℕ → ℕ → α
  DW_scheme : Option (Mat α)

/-- The spec's requirement that `order` is a permutation of axes 0,1,2. -/
def AxisPerm (f : ℕ → ℕ) : Prop :=
  f 0 < 3 ∧ f 1 < 3 ∧ f 2 < 3 ∧ f 0 ≠ f 1 ∧ f 0 ≠ f 2 ∧ f 1 ≠ f 2

instance (f : ℕ → ℕ) : Decidable (AxisPerm f) := by
  unfold AxisPerm; infer_instance

/-- The candidate sidecar paths probed by `load_bvecs_bvals`
(`gradient.h` lines 128-140): first the files literally named `bvals` and
`bvecs` in the image's directory; when neither of those exists, the
`<prefix>_bvals` / `<prefix>_bvecs` pair. -/
def sidecarPaths {α : Type} (fs : FS α) (name : String) : String × String :=
  let dir_path := Path.dirname name
  let bvals_path := Path.join dir_path "bvals"
  let bvecs_path := Path.join dir_path "bvecs"
  if !Path.is_file fs bvals_path && !Path.is_file fs bvecs_path then
    let pre := stemOf name
    (pre ++ "_bvals", pre ++ "_bvecs")
  else
    (bvals_path, bvecs_path)

/-- The signed, axis-reordered raw vector component
`header.stride (order[k]) > 0 ? bvecs(k,n) : -bvecs(k,n)`
(`gradient.h` lines 165-167). -/
def rectVal {α : Type} [LinearOrderedField α] (h : Header α) (bvecs : Mat α)
    (n k : ℕ) : α :=
  if 0 < h.stride (h.order k) then Mat.entry bvecs k n else -(Mat.entry bvecs k n)

/-- Row `n` of the intermediate matrix `G`: three assignments
`G(n, order[k]) = rectVal k` into a zero-initialised row, embedded as
function updates (`gradient.h` lines 163-168). -/
def rectRowFun {α : Type} [LinearOrderedField α] (h : Header α) (bvecs : Mat α)
    (n : ℕ) : ℕ → α :=
  Function.update
    (Function.update
      (Function.update (fun _ => 0) (h.order 0) (rectVal h bvecs n 0))
      (h.order 1) (rectVal h bvecs n 1))
    (h.order 2) (rectVal h bvecs n 2)

/-- The rectification step of `load_bvecs_bvals` (`gradient.h` lines
159-176): build `G`, right-multiply by the transpose of the 3×3
upper-left transform block (`Math::mult (…, CblasNoTrans, G, CblasTrans,
rotation)`, so entry `(n,j) = Σ_k G(n,k)·T(j,k)`), and append the b-value
row as column 3. -/
def rectify {α : Type} [LinearOrderedField α] (h : Header α)
    (bvals bvecs : Mat α) : Mat α :=
  (List.range (Mat.cols bvecs)).map (fun n =>
    let g := rectRowFun h bvecs n
    [g 0 * h.transform 0 0 + g 1 * h.transform 0 1 + g 2 * h.transform 0 2,
     g 0 * h.transform 1 0 + g 1 * h.transform 1 1 + g 2 * h.transform 1 2,
     g 0 * h.transform 2 0 + g 1 * h.transform 2 1 + g 2 * h.transform 2 2,
     Mat.entry bvals 0 n])

/-- Embedding of `DWI::load_bvecs_bvals` (`gradient.h` lines 125-177):
locate the sidecar pair next to the image named by `header.name()`,
check the presence and shape conditions in the source's order, and
rectify. -/
def load_bvecs_bvals {α : Type} [LinearOrderedField α] (h : Header α)
    (fs : FS α) : Except Exc (Mat α) :=
  let ps := sidecarPaths fs h.name
  match fs ps.1, fs ps.2 with
  | some _, none => .error (Exc.ofMsg "found bvals file but not bvecs file")
  | none, some _ => .error (Exc.ofMsg "found bvecs file but not bvals file")
  | none, none =>
      .error (Exc.ofMsg "could not find either bvecs or bvals gradient files")
  | some bvals, some bvecs =>
      if Mat.rows bvals ≠ 1 then
        .error (Exc.ofMsg "bvals file must contain 1 row only")
      else if Mat.rows bvecs ≠ 3 then
        .error (Exc.ofMsg "bvecs file must contain exactly 3 rows")
      else if Mat.cols bvals ≠ Mat.cols bvecs ∨ Mat.cols bvals ≠ h.dim3 then
        .error (Exc.ofMsg
          "bvals and bvecs files must have same number of diffusion directions as DW-image")
      else
        .ok (rectify h bvals bvecs)

/-- Modelled from the spec: the norm of a 3-component direction is
`sqrt (x² + y² + z²)` (`Math::norm` of `row.sub (0,3)`); the square root
itself is the abstract parameter `sq`, since the numerics library is not
among the shown sources. -/
def normOf {α : Type} [LinearOrderedField α] (sq : α → α) (x y z : α) : α :=
  sq (x * x + y * y + z * z)

/-- One row of `DWI::normalise_grad` (`gradient.h` lines 50-55): the
scale factor is `1 / norm` when the b-value (entry 3) is non-zero and `0`
otherwise, and it multiplies the first three entries in place. -/
def normaliseRow {α : Type} [LinearOrderedField α] (sq : α → α)
    (r : List α) : List α :=
  let norm : α :=
    if r.getD 3 0 ≠ 0 then
      1 / normOf sq (r.getD 0 0) (r.getD 1 0) (r.getD 2 0)
    else 0
  [r.getD 0 0 * norm, r.getD 1 0 * norm, r.getD 2 0 * norm] ++ r.drop 3

/-- Embedding of `DWI::normalise_grad` (`gradient.h` lines 45-57):
throws on a column count other than 4, otherwise rescales each row. -/
def normalise_grad {α : Type} [LinearOrderedField α] (sq : α → α)
    (grad : Mat α) : Except Exc (Mat α) :=
  if Mat.cols grad ≠ 4 then
    .error (Exc.ofMsg "invalid gradient matrix dimensions")
  else
    .ok (grad.map (normaliseRow sq))

/-- Modelled from the spec: `File::Config::get_float ("BValueThreshold",
10.0)` — the configuration store's value for the key when present, else
the nominal default 10. -/
def configBValueThreshold {α : Type} [LinearOrderedField α]
    (config : Option α) : α :=
  config.getD 10

/-- The threshold actually used by the classifier: the caller's value
when finite, else the configuration-resolved default
(`if (!finite (bvalue_threshold)) bvalue_threshold = File::Config::get_float (…)`,
`gradient.h` lines 74-75). -/
def effectiveThreshold {α : Type} [LinearOrderedField α]
    (bvalue_threshold config : Option α) : α :=
  bvalue_threshold.getD (configBValueThreshold config)

/-- Embedding of `DWI::guess_DW_directions` (`gradient.h` lines 67-89).
A non-finite (defaulted) caller threshold is modelled as `none`.  The
output vectors are in/out parameters in the source, so the embedding
passes the prior contents through and returns the new contents together
with the thrown exception, if any: on the column-count error the source
throws before clearing the vectors, so their prior contents are
returned unchanged. -/
def guess_DW_directions {α : Type} [LinearOrderedField α]
    (dwi bzero : List ℕ) (grad : Mat α)
    (bvalue_threshold : Option α) (config : Option α) :
    (List ℕ × List ℕ) × Option Exc :=
  let t : α := effectiveThreshold bvalue_threshold config
  if Mat.cols grad ≠ 4 then
    ((dwi, bzero),
     some (Exc.ofMsg "invalid gradient encoding matrix: expecting 4 columns."))
  else
    ((List.range (Mat.rows grad)).partition
       (fun i => decide (t < Mat.entry grad i 3)), none)

/-- Embedding of `DWI::gen_direction_matrix` (`gradient.h` lines 96-109):
for each selected volume, the azimuth `atan2 (g(i,1), g(i,0))` and the
elevation `acos (g(i,2) / n)`, with `n` the direction norm.  `at2` and
`ac` are the numerics library's `atan2` and `acos`, abstract here; the
source has no failure path, so the embedding is total. -/
def gen_direction_matrix {α : Type} [LinearOrderedField α]
    (sq : α → α) (at2 : α → α → α) (ac : α → α)
    (grad : Mat α) (dwi : List ℕ) : Mat α :=
  dwi.map (fun i =>
    let n : α :=
      normOf sq (Mat.entry grad i 0) (Mat.entry grad i 1) (Mat.entry grad i 2)
    [at2 (Mat.entry grad i 1) (Mat.entry grad i 0),
     ac (Mat.entry grad i 2 / n)])

/-- Modelled from the spec (§4.7 DirectionMatrixBuilder), for comparison
with the source's `gen_direction_matrix`: the build fails when any
selected row's direction has norm 0, and otherwise produces the
azimuth/elevation pairs in index-set order. -/
def direction_matrix_build_spec {α : Type} [LinearOrderedField α]
    (sq : α → α) (at2 : α → α → α) (ac : α → α)
    (grad : Mat α) (dwi : List ℕ) : Except Exc (Mat α) :=
  if dwi.all (fun i => decide (normOf sq (Mat.entry grad i 0)
      (Mat.entry grad i 1) (Mat.entry grad i 2) ≠ 0)) then
    .ok (dwi.map (fun i =>
      let n : α :=
        normOf sq (Mat.entry grad i 0) (Mat.entry grad i 1) (Mat.entry grad i 2)
      [at2 (Mat.entry grad i 1) (Mat.entry grad i 0),
       ac (Mat.entry grad i 2 / n)]))
  else
    .error (Exc.ofMsg "degenerate direction for a classified DWI row")

/-- Modelled from the spec: the generic already-internal-format matrix
loader (an external collaborator), reading the file at the given path. -/
def loadMatrixFile {α : Type} (fs : FS α) (p : String) : Except Exc (Mat α) :=
  match fs p with
  | some m => .ok m
  | none => .error (Exc.ofMsg ("failed to open matrix file \"" ++ p ++ "\""))

/-- The tail of `DWI::get_DW_scheme` (`gradient.h` lines 224-229): once a
candidate scheme is obtained, reject unexpected dimensions
(`rows < 7 ∨ columns ≠ 4`) and then normalise. -/
def finalizeScheme {α : Type} [LinearOrderedField α] (sq : α → α)
    (r : Except Exc (Mat α)) : Except Exc (Mat α) :=
  r.bind (fun grad =>
    if Mat.rows grad < 7 ∨ Mat.cols grad ≠ 4 then
      .error (Exc.ofMsg "unexpected diffusion encoding matrix dimensions")
    else
      normalise_grad sq grad)

/-- Embedding of `DWI::get_DW_scheme` (`gradient.h` lines 196-232).
`opt` is the `-grad` command-line option's value, when supplied.  The
second component records the `Exception::display` calls the function
makes, as (exception, log-level) pairs: in the sidecar-fallback failure
path the source displays the caught exception at level 3 (debugging) and
throws a fresh higher-level exception. -/
def get_DW_scheme {α : Type} [LinearOrderedField α] (sq : α → α)
    (opt : Option String) (h : Header α) (fs : FS α) :
    Except Exc (Mat α) × List (Exc × ℕ) :=
  match opt with
  | some p =>
      (finalizeScheme sq
        (if Path.has_suffix p "bvals" || Path.has_suffix p "bvecs" then
          load_bvecs_bvals h fs
        else
          loadMatrixFile fs p), [])
  | none =>
      match h.DW_scheme with
      | some g => (finalizeScheme sq (.ok g), [])
      | none =>
          match load_bvecs_bvals h fs with
          | .ok g => (finalizeScheme sq (.ok g), [])
          | .error E =>
              (.error (Exc.ofMsg ("no diffusion encoding found in image \"" ++
                 h.name ++ "\" or corresponding directory")),
               [(E, 3)])

/-- A concrete example header over `ℚ`: image `im/dwi.nii` with two
volumes, identity axis order, positive strides, identity transform, no
embedded scheme. -/
def hdrIm : Header ℚ :=
  { name := "im/dwi.nii", dim3 := 2, stride := fun _ => 1, order := fun k => k,
    transform := fun j k => if j = k then 1 else 0, DW_scheme := none }

/-- Example bvals sidecar contents: one row, two volumes. -/
def bvalsEx : Mat ℚ := [[0, 1000]]

/-- Example bvecs sidecar contents: three rows, two volumes. -/
def bvecsEx : Mat ℚ := [[1, 0], [0, 1], [0, 0]]

/-- Filesystem holding the plainly-named sidecar pair in the image's
directory `im`. -/
def fsIm : FS ℚ := fun p =>
  if p = "im/bvals" then some bvalsEx
  else if p = "im/bvecs" then some bvecsEx
  else none

/-- The empty filesystem. -/
def fsNone : FS ℚ := fun _ => none

/-- Filesystem holding a valid sidecar pair only in directory `ex` (the
directory of an explicit `-grad` path), with nothing in the image's
directory `im`. -/
def fsEx : FS ℚ := fun p =>
  if p = "ex/bvals" then some bvalsEx
  else if p = "ex/bvecs" then some bvecsEx
  else none

/-- Filesystem where the plainly-named `bvals` exists in the image's
directory but `bvecs` does not, while both prefixed files
`im/dwi_bvals` / `im/dwi_bvecs` exist. -/
def fsMixed : FS ℚ := fun p =>
  if p = "im/bvals" then some bvalsEx
  else if p = "im/dwi_bvals" then some bvalsEx
  else if p = "im/dwi_bvecs" then some bvecsEx
  else none

/-- The example header with a diffusion-dimension extent (5) that does
not match the two-column example sidecar pair. -/
def hdrImDim5 : Header ℚ :=
  { name := "im/dwi.nii", dim3 := 5, stride := fun _ => 1, order := fun k => k,
    transform := fun j k => if j = k then 1 else 0, DW_scheme := none }

/-- `fsIm` extended with a second valid sidecar pair under the unrelated
directory `ex`. -/
def fsImEx : FS ℚ := fun p =>
  if p = "ex/bvals" then some bvalsEx
  else if p = "ex/bvecs" then some bvecsEx
  else fsIm p

/-- A concrete embedded 7-volume scheme. -/
def gEmb : Mat ℚ :=
  [[1, 0, 0, 0], [1, 0, 0, 1000], [0, 1, 0, 1000], [0, 0, 1, 1000],
   [1, 0, 0, 2000], [0, 1, 0, 2000], [0, 0, 1, 2000]]

/-- The example header carrying an embedded `DW_scheme`. -/
def hdrEmb : Header ℚ :=
  { name := "im/dwi.nii", dim3 := 7, stride := fun _ => 1, order := fun k => k,
    transform := fun j k => if j = k then 1 else 0, DW_scheme := some gEmb }

/-- An example header with a non-identity axis order (0↦2, 1↦0, 2↦1), a
negative stride on axis 1, and a non-trivial transform block. -/
def hdrPerm : Header ℚ :=
  { name := "im/dwi.nii", dim3 := 2,
    stride := fun k => if k = 1 then -1 else 1,
    order := fun k => if k = 0 then 2 else if k = 1 then 0 else if k = 2 then 1 else k,
    transform := fun j k => (j : ℚ) + 2 * (k : ℚ),
    DW_scheme := none }

/-- Claim C10 (confirmed): `guess_DW_directions` checks the scheme's
column count itself and throws before touching the output index vectors,
so on this error the `dwi` and `bzero` vectors retain their prior
contents unchanged. -/
theorem C10_classifier_atomic_on_shape_error {α : Type} [LinearOrderedField α]
    (dwi bzero : List ℕ) (grad : Mat α) (thr config : Option α)
    (hc : Mat.cols grad ≠ 4) :
    (guess_DW_directions dwi bzero grad thr config).1 = (dwi, bzero)
    ∧ (guess_DW_directions dwi bzero grad thr config).2 =
        some (Exc.ofMsg "invalid gradient encoding matrix: expecting 4 columns.") := by
  unfold guess_DW_directions
  simp [hc]

/-- Witness for C10 at a concrete 3-column matrix with prior contents
`[5]`, `[6]`. -/
theorem C10_witness :
    Mat.cols ([[1, 2, 3]] : Mat ℚ) ≠ 4
    ∧ (guess_DW_directions [5] [6] ([[1, 2, 3]] : Mat ℚ) none none).1 = ([5], [6]) :=
  ⟨by decide,
   (C10_classifier_atomic_on_shape_error [5] [6] [[1, 2, 3]] none none (by decide)).1⟩

/-- Claim C7 (confirmed): the classifier marks a row as DWI iff its
b-value is strictly greater than the threshold (a row with b-value
exactly the threshold is b0); the two index sets are a disjoint
partition of all rows preserving the original row order; and the
threshold defaults to the configuration-resolved value (nominal default
10) when no finite explicit threshold is given. -/
theorem C7_classification {α : Type} [LinearOrderedField α]
    (dwi bzero : List ℕ) (grad : Mat α) (thr config : Option α)
    (hc : Mat.cols grad = 4) :
    (guess_DW_directions dwi bzero grad thr config).2 = none
    ∧ (∀ i, i ∈ (guess_DW_directions dwi bzero grad thr config).1.1 ↔
        i < Mat.rows grad ∧ effectiveThreshold thr config < Mat.entry grad i 3)
    ∧ (∀ i, i ∈ (guess_DW_directions dwi bzero grad thr config).1.2 ↔
        i < Mat.rows grad ∧ ¬ effectiveThreshold thr config < Mat.entry grad i 3)
    ∧ (∀ i, ¬ (i ∈ (guess_DW_directions dwi bzero grad thr config).1.1 ∧
               i ∈ (guess_DW_directions dwi bzero grad thr config).1.2))
    ∧ List.Sorted (· < ·) (guess_DW_directions dwi bzero grad thr config).1.1
    ∧ List.Sorted (· < ·) (guess_DW_directions dwi bzero grad thr config).1.2
    ∧ guess_DW_directions dwi bzero grad none config =
        guess_DW_directions dwi bzero grad (some (configBValueThreshold config)) config := by
  unfold guess_DW_directions
  simp only [hc, ne_eq, not_true_eq_false, if_false, ite_false, if_neg,
    List.partition_eq_filter_filter]
  refine ⟨by simp [hc], ?_, ?_, ?_, ?_, ?_, rfl⟩
  · intro i
    simp [hc, List.mem_filter, List.mem_range]
  · intro i
    simp [hc, List.mem_filter, List.mem_range]
  · intro i
    simp [hc, List.mem_filter, List.mem_range]
    tauto
  · simpa [hc] using
      (List.sorted_lt_range (Mat.rows grad)).sublist (List.filter_sublist _)
  · simpa [hc] using
      (List.sorted_lt_range (Mat.rows grad)).sublist (List.filter_sublist _)

/-- Witness for C7 at a concrete two-volume scheme with b-values 0 and
1000 and the defaulted threshold: volume 1 is classified DWI, volume 0
is classified b0. -/
theorem C7_witness :
    Mat.cols ([[0, 0, 0, 0], [0, 0, 0, 1000]] : Mat ℚ) = 4
    ∧ 1 ∈ (guess_DW_directions [] [] ([[0, 0, 0, 0], [0, 0, 0, 1000]] : Mat ℚ)
            none none).1.1
    ∧ 0 ∈ (guess_DW_directions [] [] ([[0, 0, 0, 0], [0, 0, 0, 1000]] : Mat ℚ)
            none none).1.2 :=
  ⟨by decide,
   ((C7_classification [] [] [[0, 0, 0, 0], [0, 0, 0, 1000]] none none
       (by decide)).2.1 1).mpr ⟨by decide, by decide⟩,
   ((C7_classification [] [] [[0, 0, 0, 0], [0, 0, 0, 1000]] none none
       (by decide)).2.2.1 0).mpr ⟨by decide, by decide⟩⟩

/-- A square-root function behaving as the real square root sends 1 to 1. -/
theorem sqSpec_one {α : Type} [LinearOrderedField α] {sq : α → α}
    (hsq : ∀ x : α, 0 ≤ x → sq x * sq x = x ∧ 0 ≤ sq x) : sq 1 = 1 := by
  obtain ⟨h1, h2⟩ := hsq 1 zero_le_one
  rcases mul_self_eq_one_iff.mp h1 with h | h
  · exact h
  · rw [h] at h2; linarith

/-- A square-root function behaving as the real square root sends 0 to 0. -/
theorem sqSpec_zero {α : Type} [LinearOrderedField α] {sq : α → α}
    (hsq : ∀ x : α, 0 ≤ x → sq x * sq x = x ∧ 0 ≤ sq x) : sq 0 = 0 :=
  mul_self_eq_zero.mp (hsq 0 le_rfl).1

/-- A list of length 4 is a literal four-element list. -/
theorem eq_list_four {α : Type} (r : List α) (h : r.length = 4) :
    ∃ x y z b, r = [x, y, z, b] := by
  rcases r with _ | ⟨x, r⟩
  · simp at h
  rcases r with _ | ⟨y, r⟩
  · simp at h
  rcases r with _ | ⟨z, r⟩
  · simp at h
  rcases r with _ | ⟨b, r⟩
  · simp at h
  rcases r with _ | ⟨c, r⟩
  · exact ⟨x, y, z, b, rfl⟩
  · simp at h

/-- `normaliseRow` on a literal four-element row. -/
theorem normaliseRow_four {α : Type} [LinearOrderedField α] (sq : α → α)
    (x y z b : α) :
    normaliseRow sq [x, y, z, b] =
      [x * (if b ≠ 0 then 1 / normOf sq x y z else 0),
       y * (if b ≠ 0 then 1 / normOf sq x y z else 0),
       z * (if b ≠ 0 then 1 / normOf sq x y z else 0), b] := rfl

/-- `normaliseRow` is idempotent on four-element rows, for any
square-root function with the real square root's defining properties. -/
theorem normaliseRow_idem {α : Type} [LinearOrderedField α] {sq : α → α}
    (hsq : ∀ x : α, 0 ≤ x → sq x * sq x = x ∧ 0 ≤ sq x) (x y z b : α) :
    normaliseRow sq (normaliseRow sq [x, y, z, b]) =
      normaliseRow sq [x, y, z, b] := by
  by_cases hb : b = 0
  · subst hb
    simp [normaliseRow_four, mul_zero]
  · have hq : (0 : α) ≤ x * x + y * y + z * z := by
      nlinarith [mul_self_nonneg x, mul_self_nonneg y, mul_self_nonneg z]
    obtain ⟨hss, hsnn⟩ := hsq _ hq
    by_cases hq0 : x * x + y * y + z * z = 0
    · have hx : x = 0 := by
        nlinarith [mul_self_nonneg x, mul_self_nonneg y, mul_self_nonneg z]
      have hy : y = 0 := by
        nlinarith [mul_self_nonneg x, mul_self_nonneg y, mul_self_nonneg z]
      have hz : z = 0 := by
        nlinarith [mul_self_nonneg x, mul_self_nonneg y, mul_self_nonneg z]
      subst hx; subst hy; subst hz
      simp only [normaliseRow_four, if_pos hb, zero_mul]
    · have hs0 : sq (x * x + y * y + z * z) ≠ 0 := by
        intro h
        rw [h, mul_zero] at hss
        exact hq0 hss.symm
      have hq1 : normOf sq (x * (1 / normOf sq x y z)) (y * (1 / normOf sq x y z))
          (z * (1 / normOf sq x y z)) = 1 := by
        unfold normOf
        have e : x * (1 / sq (x * x + y * y + z * z)) * (x * (1 / sq (x * x + y * y + z * z))) +
            y * (1 / sq (x * x + y * y + z * z)) * (y * (1 / sq (x * x + y * y + z * z))) +
            z * (1 / sq (x * x + y * y + z * z)) * (z * (1 / sq (x * x + y * y + z * z))) = 1 := by
          field_simp
          linarith [hss]
        rw [e]
        exact sqSpec_one hsq
      rw [normaliseRow_four, if_pos hb, normaliseRow_four, if_pos hb, hq1]
      norm_num

/-- `normaliseRow` preserves the length of a four-element row. -/
theorem normaliseRow_length {α : Type} [LinearOrderedField α] (sq : α → α)
    (r : List α) (h : r.length = 4) : (normaliseRow sq r).length = 4 := by
  obtain ⟨x, y, z, b, rfl⟩ := eq_list_four r h
  rw [normaliseRow_four]
  rfl

/-- Claim C9 (confirmed): normalisation is idempotent on rectangular
4-column schemes (for any square-root function with the real square
root's defining properties): applying `normalise_grad` twice equals
applying it once; a non-zero-b row whose direction already has unit norm
is unchanged; a zero-b row's direction becomes (and, by idempotence,
remains) the zero vector; and `normalise_grad` fails before processing
any row when the column count is not 4. -/
theorem C9_normalise_idempotent {α : Type} [LinearOrderedField α] (sq : α → α)
    (hsq : ∀ x : α, 0 ≤ x → sq x * sq x = x ∧ 0 ≤ sq x)
    (grad : Mat α) (hrect : ∀ r ∈ grad, r.length = 4) :
    (normalise_grad sq grad).bind (normalise_grad sq) = normalise_grad sq grad
    ∧ (∀ r ∈ grad, r.getD 3 0 ≠ 0 →
        normOf sq (r.getD 0 0) (r.getD 1 0) (r.getD 2 0) = 1 →
        normaliseRow sq r = r)
    ∧ (∀ r ∈ grad, r.getD 3 0 = 0 → normaliseRow sq r = [0, 0, 0, 0])
    ∧ (∀ g : Mat α, Mat.cols g ≠ 4 →
        normalise_grad sq g = .error (Exc.ofMsg "invalid gradient matrix dimensions")) := by
  refine ⟨?_, ?_, ?_, ?_⟩
  · by_cases hc : Mat.cols grad = 4
    · have hmap : normalise_grad sq grad = .ok (grad.map (normaliseRow sq)) := by
        simp [normalise_grad, hc]
      rw [hmap]
      have hcm : Mat.cols (grad.map (normaliseRow sq)) = 4 := by
        rcases grad with _ | ⟨r, t⟩
        · simp [Mat.cols] at hc
        · have hr : r.length = 4 := hrect r (List.mem_cons_self r t)
          simpa [Mat.cols] using normaliseRow_length sq r hr
      have hmap2 : normalise_grad sq (grad.map (normaliseRow sq)) =
          .ok ((grad.map (normaliseRow sq)).map (normaliseRow sq)) := by
        simp [normalise_grad, hcm]
      have hbind : (Except.ok (grad.map (normaliseRow sq))).bind (normalise_grad sq) =
          normalise_grad sq (grad.map (normaliseRow sq)) := rfl
      rw [hbind, hmap2, List.map_map]
      refine congrArg Except.ok (List.map_congr_left ?_)
      intro r hr
      obtain ⟨x, y, z, b, rfl⟩ := eq_list_four r (hrect r hr)
      exact normaliseRow_idem hsq x y z b
    · have herr : normalise_grad sq grad =
          .error (Exc.ofMsg "invalid gradient matrix dimensions") := by
        simp [normalise_grad, hc]
      rw [herr]
      rfl
  · intro r hr hb hn
    obtain ⟨x, y, z, b, rfl⟩ := eq_list_four r (hrect r hr)
    simp only [List.getD_cons_zero, List.getD_cons_succ] at hb hn
    rw [normaliseRow_four, if_pos hb, hn]
    norm_num
  · intro r hr hb
    obtain ⟨x, y, z, b, rfl⟩ := eq_list_four r (hrect r hr)
    simp only [List.getD_cons_zero, List.getD_cons_succ] at hb
    subst hb
    simp [normaliseRow_four]
  · intro g hg
    simp [normalise_grad, hg]

/-- Witness for C9 at `ℝ` with the real square root, on a concrete
two-row scheme holding a unit-norm DWI row and a zero b-value row. -/
theorem C9_witness :
    (∀ r ∈ ([[1, 0, 0, 0], [0, 1, 0, 1000]] : Mat ℝ), r.length = 4)
    ∧ (normalise_grad Real.sqrt ([[1, 0, 0, 0], [0, 1, 0, 1000]] : Mat ℝ)).bind
        (normalise_grad Real.sqrt)
        = normalise_grad Real.sqrt ([[1, 0, 0, 0], [0, 1, 0, 1000]] : Mat ℝ) := by
  have hrect : ∀ r ∈ ([[1, 0, 0, 0], [0, 1, 0, 1000]] : Mat ℝ), r.length = 4 := by
    intro r hr
    fin_cases hr <;> rfl
  refine ⟨hrect, ?_⟩
  exact (C9_normalise_idempotent Real.sqrt
    (fun x hx => ⟨Real.mul_self_sqrt hx, Real.sqrt_nonneg x⟩)
    [[1, 0, 0, 0], [0, 1, 0, 1000]] hrect).1

/-- Claim C3 (corrected): the sidecar locator first checks for the files
literally named `bvals` and `bvecs` in the image's directory, but it
falls back to the `<prefix>_bvals` / `<prefix>_bvecs` pair only when
BOTH plainly-named files are absent; when at least one plain file is
present the plain paths are kept (and a missing partner is reported on
them, rather than triggering the fallback as the claim states). -/
theorem C3_amended_locator {α : Type} (fs : FS α) (name : String) :
    (Path.is_file fs (Path.join (Path.dirname name) "bvals") = true ∨
     Path.is_file fs (Path.join (Path.dirname name) "bvecs") = true →
      sidecarPaths fs name =
        (Path.join (Path.dirname name) "bvals",
         Path.join (Path.dirname name) "bvecs"))
    ∧ (Path.is_file fs (Path.join (Path.dirname name) "bvals") = false ∧
       Path.is_file fs (Path.join (Path.dirname name) "bvecs") = false →
      sidecarPaths fs name =
        (stemOf name ++ "_bvals", stemOf name ++ "_bvecs")) := by
  constructor
  · intro hp
    unfold sidecarPaths
    rcases hp with hp | hp <;> simp [hp]
  · intro ⟨h1, h2⟩
    unfold sidecarPaths
    simp [h1, h2]

/-- Counterexample for C3 as stated: with the plain `bvals` present, the
plain `bvecs` absent, and a complete prefixed pair available, the claim
says the locator falls back to the prefixed pair (so the load would
succeed); the code does not fall back and fails on the incomplete plain
pair. -/
theorem C3_counterexample :
    Path.is_file fsMixed "im/bvals" = true
    ∧ Path.is_file fsMixed "im/bvecs" = false
    ∧ Path.is_file fsMixed "im/dwi_bvals" = true
    ∧ Path.is_file fsMixed "im/dwi_bvecs" = true
    ∧ load_bvecs_bvals hdrIm fsMixed =
        .error (Exc.ofMsg "found bvals file but not bvecs file") :=
  ⟨rfl, rfl, rfl, rfl, rfl⟩

/-- Witness for C3's amended statement: with only the plain `bvals`
present the plain paths are kept; with neither plain file present the
locator falls back to the prefixed pair. -/
theorem C3_amended_witness :
    Path.is_file fsMixed "im/bvals" = true
    ∧ sidecarPaths fsMixed "im/dwi.nii" = ("im/bvals", "im/bvecs")
    ∧ Path.is_file fsNone "im/bvals" = false
    ∧ Path.is_file fsNone "im/bvecs" = false
    ∧ sidecarPaths fsNone "im/dwi.nii" = ("im/dwi_bvals", "im/dwi_bvecs") :=
  ⟨rfl,
   (C3_amended_locator fsMixed "im/dwi.nii").1 (Or.inl rfl),
   rfl, rfl,
   (C3_amended_locator fsNone "im/dwi.nii").2 ⟨rfl, rfl⟩⟩

/-- Claim C6 (confirmed): the sidecar load fails with the matching
incomplete-variant message when exactly one (or neither) of the located
bvals/bvecs pair exists; after both load it fails with the matching
shape error whenever the bvals row count is not 1, the bvecs row count
is not 3, the column counts differ, or the column count differs from the
image's diffusion-dimension extent; and it returns a scheme only when
every one of those shape conditions holds. -/
theorem C6_sidecar_load_errors {α : Type} [LinearOrderedField α]
    (h : Header α) (fs : FS α) :
    (∀ bvals, fs (sidecarPaths fs h.name).1 = some bvals →
      fs (sidecarPaths fs h.name).2 = none →
      load_bvecs_bvals h fs = .error (Exc.ofMsg "found bvals file but not bvecs file"))
    ∧ (∀ bvecs, fs (sidecarPaths fs h.name).1 = none →
        fs (sidecarPaths fs h.name).2 = some bvecs →
        load_bvecs_bvals h fs = .error (Exc.ofMsg "found bvecs file but not bvals file"))
    ∧ (fs (sidecarPaths fs h.name).1 = none →
        fs (sidecarPaths fs h.name).2 = none →
        load_bvecs_bvals h fs =
          .error (Exc.ofMsg "could not find either bvecs or bvals gradient files"))
    ∧ (∀ bvals bvecs, fs (sidecarPaths fs h.name).1 = some bvals →
        fs (sidecarPaths fs h.name).2 = some bvecs →
        (Mat.rows bvals ≠ 1 →
          load_bvecs_bvals h fs = .error (Exc.ofMsg "bvals file must contain 1 row only"))
        ∧ (Mat.rows bvals = 1 → Mat.rows bvecs ≠ 3 →
          load_bvecs_bvals h fs = .error (Exc.ofMsg "bvecs file must contain exactly 3 rows"))
        ∧ (Mat.rows bvals = 1 → Mat.rows bvecs = 3 →
            (Mat.cols bvals ≠ Mat.cols bvecs ∨ Mat.cols bvals ≠ h.dim3) →
          load_bvecs_bvals h fs = .error (Exc.ofMsg
            "bvals and bvecs files must have same number of diffusion directions as DW-image")))
    ∧ (∀ g, load_bvecs_bvals h fs = .ok g →
        ∃ bvals bvecs, fs (sidecarPaths fs h.name).1 = some bvals ∧
          fs (sidecarPaths fs h.name).2 = some bvecs ∧
          Mat.rows bvals = 1 ∧ Mat.rows bvecs = 3 ∧
          Mat.cols bvals = Mat.cols bvecs ∧ Mat.cols bvals = h.dim3 ∧
          g = rectify h bvals bvecs) := by
  refine ⟨?_, ?_, ?_, ?_, ?_⟩
  · intro bvals h1 h2
    simp [load_bvecs_bvals, h1, h2]
  · intro bvecs h1 h2
    simp [load_bvecs_bvals, h1, h2]
  · intro h1 h2
    simp [load_bvecs_bvals, h1, h2]
  · intro bvals bvecs h1 h2
    refine ⟨?_, ?_, ?_⟩
    · intro hr1
      simp [load_bvecs_bvals, h1, h2, hr1]
    · intro hr1 hr3
      simp [load_bvecs_bvals, h1, h2, hr1, hr3]
    · intro hr1 hr3 hcols
      simp only [load_bvecs_bvals, h1, h2]
      rw [if_neg (by simp [hr1]), if_neg (by simp [hr3]), if_pos hcols]
  · intro g hok
    rcases hpb : fs (sidecarPaths fs h.name).1 with _ | bvals <;>
      rcases hpv : fs (sidecarPaths fs h.name).2 with _ | bvecs <;>
      simp only [load_bvecs_bvals, hpb, hpv] at hok
    · cases hok
    · cases hok
    · cases hok
    · refine ⟨bvals, bvecs, rfl, rfl, ?_⟩
      by_cases hr1 : Mat.rows bvals = 1
      · by_cases hr3 : Mat.rows bvecs = 3
        · by_cases hcc : Mat.cols bvals ≠ Mat.cols bvecs ∨ Mat.cols bvals ≠ h.dim3
          · rw [if_neg (by simp [hr1]), if_neg (by simp [hr3]), if_pos hcc] at hok
            cases hok
          · push_neg at hcc
            rw [if_neg (by simp [hr1]), if_neg (by simp [hr3]), if_neg (by
              push_neg
              exact hcc)] at hok
            cases hok
            exact ⟨hr1, hr3, hcc.1, hcc.2, rfl⟩
        · rw [if_neg (by simp [hr1]), if_pos (by simp [hr3])] at hok
          cases hok
      · rw [if_pos (by simp [hr1])] at hok
        cases hok

/-- Witness for C6: the neither-found variant on an empty filesystem,
and the extent-mismatch shape error when the image's diffusion extent
(5) does not match the two-column sidecar pair. -/
theorem C6_witness :
    fsNone (sidecarPaths fsNone hdrIm.name).1 = none
    ∧ fsNone (sidecarPaths fsNone hdrIm.name).2 = none
    ∧ load_bvecs_bvals hdrIm fsNone =
        .error (Exc.ofMsg "could not find either bvecs or bvals gradient files")
    ∧ fsIm (sidecarPaths fsIm hdrImDim5.name).1 = some bvalsEx
    ∧ fsIm (sidecarPaths fsIm hdrImDim5.name).2 = some bvecsEx
    ∧ Mat.cols bvalsEx ≠ hdrImDim5.dim3
    ∧ load_bvecs_bvals hdrImDim5 fsIm =
        .error (Exc.ofMsg
          "bvals and bvecs files must have same number of diffusion directions as DW-image") :=
  ⟨rfl, rfl,
   (C6_sidecar_load_errors hdrIm fsNone).2.2.1 rfl rfl,
   rfl, rfl, by decide,
   ((C6_sidecar_load_errors hdrImDim5 fsIm).2.2.2.1 bvalsEx bvecsEx rfl rfl).2.2
     (by decide) (by decide) (Or.inr (by decide))⟩

/-- Claim C2 (confirmed): with no explicit source and no embedded header
scheme, when the sidecar stage fails the resolver raises a higher-level
error whose message is exactly
`no diffusion encoding found in image "<name>" or corresponding
directory` (not the low-level sidecar error), and the original sidecar
failure is displayed at log level 3 (debugging) rather than discarded. -/
theorem C2_composed_failure {α : Type} [LinearOrderedField α] (sq : α → α)
    (h : Header α) (fs : FS α) (E : Exc)
    (hemb : h.DW_scheme = none)
    (hfail : load_bvecs_bvals h fs = .error E) :
    (get_DW_scheme sq none h fs).1 =
      .error (Exc.ofMsg ("no diffusion encoding found in image \"" ++ h.name ++
        "\" or corresponding directory"))
    ∧ (get_DW_scheme sq none h fs).2 = [(E, 3)] := by
  simp [get_DW_scheme, hemb, hfail]

/-- Witness for C2 on the empty filesystem: the sidecar stage fails with
the neither-found error, and the resolver reports the composed message
while logging the original failure at level 3. -/
theorem C2_witness :
    hdrIm.DW_scheme = none
    ∧ load_bvecs_bvals hdrIm fsNone =
        .error (Exc.ofMsg "could not find either bvecs or bvals gradient files")
    ∧ (get_DW_scheme (fun x : ℚ => x) none hdrIm fsNone).1 =
        .error (Exc.ofMsg
          "no diffusion encoding found in image \"im/dwi.nii\" or corresponding directory")
    ∧ (get_DW_scheme (fun x : ℚ => x) none hdrIm fsNone).2 =
        [(Exc.ofMsg "could not find either bvecs or bvals gradient files", 3)] :=
  ⟨rfl, rfl,
   (C2_composed_failure (fun x : ℚ => x) hdrIm fsNone
      (Exc.ofMsg "could not find either bvecs or bvals gradient files") rfl rfl).1,
   (C2_composed_failure (fun x : ℚ => x) hdrIm fsNone
      (Exc.ofMsg "could not find either bvecs or bvals gradient files") rfl rfl).2⟩

/-- The sidecar locator returns either the plain pair of candidate paths
or the prefixed pair. -/
theorem sidecarPaths_cases {α : Type} (fs : FS α) (name : String) :
    sidecarPaths fs name =
      (Path.join (Path.dirname name) "bvals", Path.join (Path.dirname name) "bvecs")
    ∨ sidecarPaths fs name =
      (stemOf name ++ "_bvals", stemOf name ++ "_bvecs") := by
  by_cases hb : (!Path.is_file fs (Path.join (Path.dirname name) "bvals") &&
      !Path.is_file fs (Path.join (Path.dirname name) "bvecs")) = true
  · right; simp only [sidecarPaths, hb, if_true]
  · left
    simp only [sidecarPaths]
    rw [if_neg hb]

/-- `load_bvecs_bvals` reads the filesystem only at the four candidate
paths derived from the image's own name: two filesystems agreeing there
give the same result. -/
theorem load_bvecs_bvals_local {α : Type} [LinearOrderedField α]
    (h : Header α) (fs₁ fs₂ : FS α)
    (hagree : ∀ q ∈ [Path.join (Path.dirname h.name) "bvals",
                     Path.join (Path.dirname h.name) "bvecs",
                     stemOf h.name ++ "_bvals",
                     stemOf h.name ++ "_bvecs"], fs₁ q = fs₂ q) :
    load_bvecs_bvals h fs₁ = load_bvecs_bvals h fs₂ := by
  have h1 := hagree (Path.join (Path.dirname h.name) "bvals") (by simp)
  have h2 := hagree (Path.join (Path.dirname h.name) "bvecs") (by simp)
  have h3 := hagree (stemOf h.name ++ "_bvals") (by simp)
  have h4 := hagree (stemOf h.name ++ "_bvecs") (by simp)
  have hpaths : sidecarPaths fs₁ h.name = sidecarPaths fs₂ h.name := by
    simp only [sidecarPaths, Path.is_file, h1, h2]
  have hv1 : fs₁ (sidecarPaths fs₂ h.name).1 = fs₂ (sidecarPaths fs₂ h.name).1 := by
    rcases sidecarPaths_cases fs₂ h.name with hc | hc <;> rw [hc]
    · exact h1
    · exact h3
  have hv2 : fs₁ (sidecarPaths fs₂ h.name).2 = fs₂ (sidecarPaths fs₂ h.name).2 := by
    rcases sidecarPaths_cases fs₂ h.name with hc | hc <;> rw [hc]
    · exact h2
    · exact h4
  simp only [load_bvecs_bvals]
  rw [hpaths, hv1, hv2]

/-- Counterexample for C1 as stated: the explicit `-grad` path
`ex/bvals` names a directory `ex` holding a complete, valid sidecar
pair, yet resolution fails with the sidecar-not-found error, because the
pair is searched for in the image's own directory `im` (which holds
nothing), not in the directory implied by the explicit path. -/
theorem C1_counterexample :
    Path.has_suffix "ex/bvals" "bvals" = true
    ∧ fsEx "ex/bvals" = some bvalsEx
    ∧ fsEx "ex/bvecs" = some bvecsEx
    ∧ (get_DW_scheme (fun x : ℚ => x) (some "ex/bvals") hdrIm fsEx).1 =
        .error (Exc.ofMsg "could not find either bvecs or bvals gradient files") :=
  ⟨rfl, rfl, rfl, rfl⟩

/-- Claim C1 (amended, proved): on an explicit gradient-source path
ending in `bvals`/`bvecs`, the resolver loads the sidecar pair from the
image's own directory — its result depends on the filesystem only
through the four sidecar candidate paths derived from the image's name,
never through the explicit path's directory. -/
theorem C1_amended_image_directory {α : Type} [LinearOrderedField α]
    (sq : α → α) (p : String) (h : Header α) (fs₁ fs₂ : FS α)
    (hs : Path.has_suffix p "bvals" = true ∨ Path.has_suffix p "bvecs" = true)
    (hagree : ∀ q ∈ [Path.join (Path.dirname h.name) "bvals",
                     Path.join (Path.dirname h.name) "bvecs",
                     stemOf h.name ++ "_bvals",
                     stemOf h.name ++ "_bvecs"], fs₁ q = fs₂ q) :
    get_DW_scheme sq (some p) h fs₁ = get_DW_scheme sq (some p) h fs₂ := by
  have hcond : (Path.has_suffix p "bvals" || Path.has_suffix p "bvecs") = true := by
    rcases hs with hs | hs <;> simp [hs]
  simp only [get_DW_scheme]
  rw [if_pos hcond, if_pos hcond, load_bvecs_bvals_local h fs₁ fs₂ hagree]

/-- Witness for C1's amended statement: adding a sidecar pair under the
unrelated directory `ex` named by the explicit path does not change the
resolver's result. -/
theorem C1_amended_witness :
    Path.has_suffix "ex/bvals" "bvals" = true
    ∧ (∀ q ∈ [Path.join (Path.dirname hdrIm.name) "bvals",
              Path.join (Path.dirname hdrIm.name) "bvecs",
              stemOf hdrIm.name ++ "_bvals",
              stemOf hdrIm.name ++ "_bvecs"], fsIm q = fsImEx q)
    ∧ get_DW_scheme (fun x : ℚ => x) (some "ex/bvals") hdrIm fsIm =
        get_DW_scheme (fun x : ℚ => x) (some "ex/bvals") hdrIm fsImEx := by
  have hagree : ∀ q ∈ [Path.join (Path.dirname hdrIm.name) "bvals",
      Path.join (Path.dirname hdrIm.name) "bvecs",
      stemOf hdrIm.name ++ "_bvals",
      stemOf hdrIm.name ++ "_bvecs"], fsIm q = fsImEx q := by
    intro q hq
    fin_cases hq <;> rfl
  exact ⟨rfl, hagree,
    C1_amended_image_directory (fun x : ℚ => x) "ex/bvals" hdrIm fsIm fsImEx
      (Or.inl rfl) hagree⟩

/-- Claim C8 (confirmed): the resolver's precedence is strict — a
supplied explicit source always wins (the result never depends on the
embedded scheme field); with no explicit source and an embedded scheme
set, the embedded scheme is adopted without any filesystem access (the
result is the same for every filesystem); and the sidecar result is
adopted only when both earlier sources are absent. -/
theorem C8_resolver_precedence {α : Type} [LinearOrderedField α] (sq : α → α)
    (h : Header α) (fs : FS α) :
    (∀ (p : String) (d : Option (Mat α)),
       get_DW_scheme sq (some p) h fs =
         get_DW_scheme sq (some p) { h with DW_scheme := d } fs)
    ∧ (∀ g, h.DW_scheme = some g →
        (∀ fs' : FS α, get_DW_scheme sq none h fs = get_DW_scheme sq none h fs')
        ∧ (get_DW_scheme sq none h fs).1 =
            (if Mat.rows g < 7 ∨ Mat.cols g ≠ 4 then
               .error (Exc.ofMsg "unexpected diffusion encoding matrix dimensions")
             else normalise_grad sq g))
    ∧ (h.DW_scheme = none → ∀ g, load_bvecs_bvals h fs = .ok g →
        get_DW_scheme sq none h fs = (finalizeScheme sq (.ok g), [])) := by
  refine ⟨?_, ?_, ?_⟩
  · intro p d
    obtain ⟨nm, d3, st, od, tr, dw⟩ := h
    rfl
  · intro g hg
    constructor
    · intro fs'
      simp [get_DW_scheme, hg]
    · simp [get_DW_scheme, hg, finalizeScheme, Except.bind]
  · intro hg g hok
    simp [get_DW_scheme, hg, hok]

/-- Witness for C8: with the embedded-scheme header the resolver ignores
the filesystem, and with an explicit generic path the resolver ignores
the embedded scheme field. -/
theorem C8_witness :
    hdrEmb.DW_scheme = some gEmb
    ∧ get_DW_scheme (fun x : ℚ => x) none hdrEmb fsNone =
        get_DW_scheme (fun x : ℚ => x) none hdrEmb fsIm
    ∧ get_DW_scheme (fun x : ℚ => x) (some "grad.txt") hdrEmb fsNone =
        get_DW_scheme (fun x : ℚ => x) (some "grad.txt")
          { hdrEmb with DW_scheme := none } fsNone :=
  ⟨rfl,
   ((C8_resolver_precedence (fun x : ℚ => x) hdrEmb fsNone).2.1 gEmb rfl).1 fsIm,
   (C8_resolver_precedence (fun x : ℚ => x) hdrEmb fsNone).1 "grad.txt" none⟩

/-- Row `n` of the rectified scheme, in closed form. -/
theorem rectify_row {α : Type} [LinearOrderedField α] (h : Header α)
    (bvals bvecs : Mat α) (n : ℕ) (hn : n < Mat.cols bvecs) :
    (rectify h bvals bvecs).getD n [] =
      [rectRowFun h bvecs n 0 * h.transform 0 0 + rectRowFun h bvecs n 1 * h.transform 0 1 +
         rectRowFun h bvecs n 2 * h.transform 0 2,
       rectRowFun h bvecs n 0 * h.transform 1 0 + rectRowFun h bvecs n 1 * h.transform 1 1 +
         rectRowFun h bvecs n 2 * h.transform 1 2,
       rectRowFun h bvecs n 0 * h.transform 2 0 + rectRowFun h bvecs n 1 * h.transform 2 1 +
         rectRowFun h bvecs n 2 * h.transform 2 2,
       Mat.entry bvals 0 n] := by
  unfold rectify
  rw [List.getD_eq_getElem?_getD, List.getElem?_map, List.getElem?_range hn]
  rfl

/-- The three assignments building row `n` of `G` land exactly as
`G(n, order[k]) = ±bvecs(k,n)` when `order` is a permutation of 0,1,2. -/
theorem rectRowFun_order {α : Type} [LinearOrderedField α] (h : Header α)
    (bvecs : Mat α) (n : ℕ) (hperm : AxisPerm h.order) :
    ∀ k, k < 3 → rectRowFun h bvecs n (h.order k) =
      (if 0 < h.stride (h.order k) then Mat.entry bvecs k n
       else -(Mat.entry bvecs k n)) := by
  obtain ⟨h0, h1, h2, h01, h02, h12⟩ := hperm
  intro k hk
  interval_cases k
  · unfold rectRowFun
    rw [Function.update_noteq h02, Function.update_noteq h01, Function.update_same]
    rfl
  · unfold rectRowFun
    rw [Function.update_noteq h12, Function.update_same]
    rfl
  · unfold rectRowFun
    rw [Function.update_same]
    rfl

/-- Claim C4 (confirmed): for a successfully loaded bvecs/bvals pair the
intermediate matrix satisfies
`G(n, order[k]) = strideSign(order[k]) > 0 ? bvecs(k,n) : -bvecs(k,n)`;
the first three columns of the result are the rows of `G` times the
transpose of the 3×3 upper-left transform block
(`entry(n,j) = Σ_k G(n,k)·T(j,k)`); and the b-value row is appended
unchanged as column 3. -/
theorem C4_rectification {α : Type} [LinearOrderedField α]
    (h : Header α) (fs : FS α) (bvals bvecs grad : Mat α)
    (hperm : AxisPerm h.order)
    (hb : fs (sidecarPaths fs h.name).1 = some bvals)
    (hv : fs (sidecarPaths fs h.name).2 = some bvecs)
    (hload : load_bvecs_bvals h fs = .ok grad) :
    (∀ n, n < Mat.cols bvecs → ∀ k, k < 3 →
       rectRowFun h bvecs n (h.order k) =
         (if 0 < h.stride (h.order k) then Mat.entry bvecs k n
          else -(Mat.entry bvecs k n)))
    ∧ (∀ n j, n < Mat.cols bvecs → j < 3 →
        Mat.entry grad n j =
          rectRowFun h bvecs n 0 * h.transform j 0 +
          rectRowFun h bvecs n 1 * h.transform j 1 +
          rectRowFun h bvecs n 2 * h.transform j 2)
    ∧ (∀ n, n < Mat.cols bvecs → Mat.entry grad n 3 = Mat.entry bvals 0 n) := by
  have hgrad : grad = rectify h bvals bvecs := by
    simp only [load_bvecs_bvals, hb, hv] at hload
    split_ifs at hload with e1 e2 e3
    cases hload
    rfl
  subst hgrad
  refine ⟨?_, ?_, ?_⟩
  · intro n _ k hk
    exact rectRowFun_order h bvecs n ⟨hperm.1, hperm.2.1, hperm.2.2.1,
      hperm.2.2.2.1, hperm.2.2.2.2.1, hperm.2.2.2.2.2⟩ k hk
  · intro n j hn hj
    unfold Mat.entry
    rw [rectify_row h bvals bvecs n hn]
    interval_cases j <;> rfl
  · intro n hn
    unfold Mat.entry
    rw [rectify_row h bvals bvecs n hn]
    rfl

/-- Witness for C4 on the header with permuted axis order (0↦2, 1↦0,
2↦1), a negative stride, and a non-trivial transform block. -/
theorem C4_witness :
    AxisPerm hdrPerm.order
    ∧ fsIm (sidecarPaths fsIm hdrPerm.name).1 = some bvalsEx
    ∧ fsIm (sidecarPaths fsIm hdrPerm.name).2 = some bvecsEx
    ∧ load_bvecs_bvals hdrPerm fsIm = .ok (rectify hdrPerm bvalsEx bvecsEx)
    ∧ (∀ n, n < Mat.cols bvecsEx →
        Mat.entry (rectify hdrPerm bvalsEx bvecsEx) n 3 = Mat.entry bvalsEx 0 n) :=
  ⟨by decide, rfl, rfl, rfl,
   (C4_rectification hdrPerm fsIm bvalsEx bvecsEx
      (rectify hdrPerm bvalsEx bvecsEx) (by decide) rfl rfl rfl).2.2⟩

/-- Counterexample for C5 as stated: on a scheme whose selected row has
direction norm 0, the spec-modelled builder fails with the degenerate
direction error, but the source's `gen_direction_matrix` does not fail —
it still produces a (degenerate) one-row direction matrix. -/
theorem C5_counterexample :
    normOf Real.sqrt (Mat.entry ([[0, 0, 0, 1000]] : Mat ℝ) 0 0)
      (Mat.entry ([[0, 0, 0, 1000]] : Mat ℝ) 0 1)
      (Mat.entry ([[0, 0, 0, 1000]] : Mat ℝ) 0 2) = 0
    ∧ direction_matrix_build_spec Real.sqrt
        (fun y x => Complex.arg (↑x + ↑y * Complex.I)) Real.arccos
        ([[0, 0, 0, 1000]] : Mat ℝ) [0] =
        .error (Exc.ofMsg "degenerate direction for a classified DWI row")
    ∧ Mat.rows (gen_direction_matrix Real.sqrt
        (fun y x => Complex.arg (↑x + ↑y * Complex.I)) Real.arccos
        ([[0, 0, 0, 1000]] : Mat ℝ) [0]) = 1 := by
  have he0 : Mat.entry ([[0, 0, 0, 1000]] : Mat ℝ) 0 0 = 0 := rfl
  have he1 : Mat.entry ([[0, 0, 0, 1000]] : Mat ℝ) 0 1 = 0 := rfl
  have he2 : Mat.entry ([[0, 0, 0, 1000]] : Mat ℝ) 0 2 = 0 := rfl
  have hn : normOf Real.sqrt (Mat.entry ([[0, 0, 0, 1000]] : Mat ℝ) 0 0)
      (Mat.entry ([[0, 0, 0, 1000]] : Mat ℝ) 0 1)
      (Mat.entry ([[0, 0, 0, 1000]] : Mat ℝ) 0 2) = 0 := by
    rw [he0, he1, he2]
    simp [normOf]
  refine ⟨hn, ?_, rfl⟩
  unfold direction_matrix_build_spec
  rw [if_neg]
  intro hall
  rw [List.all_eq_true] at hall
  have := of_decide_eq_true (hall 0 (by simp))
  exact this hn

/-- Claim C5 (amended, proved): the direction-matrix builder has no
failure path — on a zero-norm selected row it still returns a result
(rows as many as selected indices) instead of failing; and whenever
every selected row has non-zero direction norm, its output agrees
exactly with the spec-modelled build: pairs
`(atan2 (y,x), acos (z / n))` in the order of the index set. -/
theorem C5_amended_builder_total {α : Type} [LinearOrderedField α]
    (sq : α → α) (at2 : α → α → α) (ac : α → α) (grad : Mat α) (dwi : List ℕ)
    (hnz : ∀ i ∈ dwi, normOf sq (Mat.entry grad i 0) (Mat.entry grad i 1)
      (Mat.entry grad i 2) ≠ 0) :
    direction_matrix_build_spec sq at2 ac grad dwi =
      .ok (gen_direction_matrix sq at2 ac grad dwi)
    ∧ Mat.rows (gen_direction_matrix sq at2 ac grad dwi) = dwi.length := by
  constructor
  · have hall : (dwi.all (fun i => decide (normOf sq (Mat.entry grad i 0)
        (Mat.entry grad i 1) (Mat.entry grad i 2) ≠ 0))) = true := by
      rw [List.all_eq_true]
      intro i hi
      exact decide_eq_true (hnz i hi)
    unfold direction_matrix_build_spec
    rw [if_pos hall]
    rfl
  · exact List.length_map dwi _

/-- Witness for C5's amended statement on a unit-direction row. -/
theorem C5_amended_witness :
    (∀ i ∈ [0], normOf Real.sqrt (Mat.entry ([[1, 0, 0, 1000]] : Mat ℝ) i 0)
      (Mat.entry ([[1, 0, 0, 1000]] : Mat ℝ) i 1)
      (Mat.entry ([[1, 0, 0, 1000]] : Mat ℝ) i 2) ≠ 0)
    ∧ direction_matrix_build_spec Real.sqrt
        (fun y x => Complex.arg (↑x + ↑y * Complex.I)) Real.arccos
        ([[1, 0, 0, 1000]] : Mat ℝ) [0] =
      .ok (gen_direction_matrix Real.sqrt
        (fun y x => Complex.arg (↑x + ↑y * Complex.I)) Real.arccos
        ([[1, 0, 0, 1000]] : Mat ℝ) [0]) := by
  have hnz : ∀ i ∈ [0], normOf Real.sqrt (Mat.entry ([[1, 0, 0, 1000]] : Mat ℝ) i 0)
      (Mat.entry ([[1, 0, 0, 1000]] : Mat ℝ) i 1)
      (Mat.entry ([[1, 0, 0, 1000]] : Mat ℝ) i 2) ≠ 0 := by
    intro i hi
    have : i = 0 := by simpa using hi
    subst this
    show normOf Real.sqrt 1 0 0 ≠ 0
    simp [normOf]
  exact ⟨hnz,
    (C5_amended_builder_total Real.sqrt
      (fun y x => Complex.arg (↑x + ↑y * Complex.I)) Real.arccos
      [[1, 0, 0, 1000]] [0] hnz).1⟩
